import Mathlib

/-!
Shallow embedding of the recipe-app-api repository (Django REST Framework
recipe/tag/ingredient API).  The data model and the view-level behaviour are
translated from `src/app/recipe/views.py`; framework semantics (token
authentication gate, queryset-based object lookup returning 404, model-viewset
routing) are embedded explicitly.  Parts of the repository that are not in the
sources (`core/models.py`, `recipe/serializers.py`) are modelled from the spec
and carry a doc comment saying so.
-/

namespace RecipeApp

/-- A `core.models.Tag` row: name plus owning user foreign key. -/
structure Tag where
  id : Nat
  user : Nat
  name : String
deriving DecidableEq, Repr

/-- A `core.models.Ingredient` row: name plus owning user foreign key. -/
structure Ingredient where
  id : Nat
  user : Nat
  name : String
deriving DecidableEq, Repr

/-- A `core.models.Recipe` row.  `price` is the fixed-precision decimal scaled
to cents (2 decimal places); `tags`/`ingredients` are the many-to-many
association sets, as lists of row ids; `image` is the optional uploaded file
reference. -/
structure Recipe where
  id : Nat
  user : Nat
  title : String
  description : String
  time_minutes : Nat
  price : Int
  link : String
  image : Option String
  tags : List Nat
  ingredients : List Nat
deriving DecidableEq, Repr

/-- The persistence layer: the three tables plus fresh-id counters. -/
structure DB where
  recipes : List Recipe
  tags : List Tag
  ingredients : List Ingredient
  nextRecipeId : Nat
  nextTagId : Nat
  nextIngredientId : Nat
deriving DecidableEq, Repr

/-- `RecipeViewSet.get_queryset`:
`self.queryset.filter(user=self.request.user).order_by('-id')`. -/
def recipeQueryset (u : Nat) (db : DB) : List Recipe :=
  List.insertionSort (fun a b => b.id ≤ a.id)
    (db.recipes.filter (fun r => r.user == u))

/-- `BaseRecipeAttrViewSet.get_queryset` for tags:
`self.queryset.filter(user=self.request.user).order_by('-name')`. -/
def tagQueryset (u : Nat) (db : DB) : List Tag :=
  List.insertionSort (fun a b => b.name ≤ a.name)
    (db.tags.filter (fun t => t.user == u))

/-- `BaseRecipeAttrViewSet.get_queryset` for ingredients. -/
def ingredientQueryset (u : Nat) (db : DB) : List Ingredient :=
  List.insertionSort (fun a b => b.name ≤ a.name)
    (db.ingredients.filter (fun i => i.user == u))

/-- DRF `get_object` on the user-filtered recipe queryset: the row with the
requested pk, or `none` (translated to a 404 response) when the filtered
queryset has no such row. -/
def recipeGetObject (u rid : Nat) (db : DB) : Option Recipe :=
  (recipeQueryset u db).find? (fun r => r.id == rid)

/-- DRF `get_object` on the user-filtered tag queryset. -/
def tagGetObject (u tid : Nat) (db : DB) : Option Tag :=
  (tagQueryset u db).find? (fun t => t.id == tid)

/-- DRF `get_object` on the user-filtered ingredient queryset. -/
def ingredientGetObject (u iid : Nat) (db : DB) : Option Ingredient :=
  (ingredientQueryset u db).find? (fun i => i.id == iid)

/-- Response bodies produced by the API layer. -/
inductive Body where
  | recipePage (l : List Recipe)
  | recipeOne (r : Recipe)
  | tagPage (l : List Tag)
  | tagOne (t : Tag)
  | ingredientPage (l : List Ingredient)
  | ingredientOne (i : Ingredient)
deriving DecidableEq, Repr

/-- HTTP responses the API produces (spec section 6 status codes). -/
inductive Response where
  | ok (b : Body)
  | created (b : Body)
  | noContent
  | badRequest
  | unauthorized
  | notFound
deriving DecidableEq, Repr

/-- Numeric HTTP status code of a response. -/
def Response.statusCode : Response → Nat
  | .ok _ => 200
  | .created _ => 201
  | .noContent => 204
  | .badRequest => 400
  | .unauthorized => 401
  | .notFound => 404

/-- Modelled from the spec: `recipe/serializers.py` is not among the sources.
Per the spec, each nested `{name}` object in a recipe payload is resolved by
looking up an existing Tag owned by the current user with that exact name,
creating one only if absent (get-or-create on `(user, name)`). -/
def getOrCreateTag (u : Nat) (n : String) (db : DB) : Nat × DB :=
  match db.tags.find? (fun t => t.user == u && t.name == n) with
  | some t => (t.id, db)
  | none =>
      (db.nextTagId,
       { db with
           tags := db.tags ++ [{ id := db.nextTagId, user := u, name := n }],
           nextTagId := db.nextTagId + 1 })

/-- Modelled from the spec: same get-or-create policy for ingredients. -/
def getOrCreateIngredient (u : Nat) (n : String) (db : DB) : Nat × DB :=
  match db.ingredients.find? (fun i => i.user == u && i.name == n) with
  | some i => (i.id, db)
  | none =>
      (db.nextIngredientId,
       { db with
           ingredients :=
             db.ingredients ++ [{ id := db.nextIngredientId, user := u, name := n }],
           nextIngredientId := db.nextIngredientId + 1 })

/-- Modelled from the spec: resolve a nested list of tag names left to right,
get-or-creating each and collecting the resolved row ids. -/
def resolveTags (u : Nat) (names : List String) (db : DB) : List Nat × DB :=
  match names with
  | [] => ([], db)
  | n :: rest =>
      ((getOrCreateTag u n db).1
         :: (resolveTags u rest (getOrCreateTag u n db).2).1,
       (resolveTags u rest (getOrCreateTag u n db).2).2)

/-- Modelled from the spec: resolve a nested list of ingredient names. -/
def resolveIngredients (u : Nat) (names : List String) (db : DB) : List Nat × DB :=
  match names with
  | [] => ([], db)
  | n :: rest =>
      ((getOrCreateIngredient u n db).1
         :: (resolveIngredients u rest (getOrCreateIngredient u n db).2).1,
       (resolveIngredients u rest (getOrCreateIngredient u n db).2).2)

/-- A recipe create payload.  `tags`/`ingredients` are the optional nested
`{name}` lists.  `payloadUser` models a stray `user` value in the request
body; `RecipeViewSet.perform_create` ignores it and saves with
`user=self.request.user`. -/
structure RecipePayload where
  title : String
  description : String
  time_minutes : Nat
  price : Int
  link : String
  tags : Option (List String)
  ingredients : Option (List String)
  payloadUser : Option Nat
deriving DecidableEq, Repr

/-- A PATCH payload for a recipe: absent fields are left unchanged; a present
`tags`/`ingredients` list fully replaces the association set. -/
structure RecipePatch where
  title : Option String := none
  description : Option String := none
  time_minutes : Option Nat := none
  price : Option Int := none
  link : Option String := none
  tags : Option (List String) := none
  ingredients : Option (List String) := none
deriving DecidableEq, Repr

/-- `GET /recipes/`: list, gated by `TokenAuthentication`/`IsAuthenticated`. -/
def recipeList (auth : Option Nat) (db : DB) : Response × DB :=
  match auth with
  | none => (.unauthorized, db)
  | some u => (.ok (.recipePage (recipeQueryset u db)), db)

/-- `GET /recipes/{id}/`: retrieve from the user-filtered queryset. -/
def recipeRetrieve (auth : Option Nat) (rid : Nat) (db : DB) : Response × DB :=
  match auth with
  | none => (.unauthorized, db)
  | some u =>
      match recipeGetObject u rid db with
      | none => (.notFound, db)
      | some r => (.ok (.recipeOne r), db)

/-- `POST /recipes/`: create.  Nested tag/ingredient names are resolved by
get-or-create; `perform_create` forces `user := request.user`; `image` starts
null. -/
def recipeCreate (auth : Option Nat) (p : RecipePayload) (db : DB) :
    Response × DB :=
  match auth with
  | none => (.unauthorized, db)
  | some u =>
      let tres := resolveTags u (p.tags.getD []) db
      let ires := resolveIngredients u (p.ingredients.getD []) tres.2
      let r : Recipe :=
        { id := ires.2.nextRecipeId, user := u, title := p.title,
          description := p.description, time_minutes := p.time_minutes,
          price := p.price, link := p.link, image := none,
          tags := tres.1, ingredients := ires.1 }
      (.created (.recipeOne r),
       { ires.2 with
           recipes := ires.2.recipes ++ [r],
           nextRecipeId := ires.2.nextRecipeId + 1 })

/-- `PATCH /recipes/{id}/`: partial update.  A present nested list is resolved
and fully replaces the association set; absent fields keep their value. -/
def recipePatchUpdate (auth : Option Nat) (rid : Nat) (p : RecipePatch)
    (db : DB) : Response × DB :=
  match auth with
  | none => (.unauthorized, db)
  | some u =>
      match recipeGetObject u rid db with
      | none => (.notFound, db)
      | some r =>
          let tres : Option (List Nat) × DB :=
            match p.tags with
            | some ns => (some (resolveTags u ns db).1, (resolveTags u ns db).2)
            | none => (none, db)
          let ires : Option (List Nat) × DB :=
            match p.ingredients with
            | some ns =>
                (some (resolveIngredients u ns tres.2).1,
                 (resolveIngredients u ns tres.2).2)
            | none => (none, tres.2)
          let r' : Recipe :=
            { r with
                title := p.title.getD r.title,
                description := p.description.getD r.description,
                time_minutes := p.time_minutes.getD r.time_minutes,
                price := p.price.getD r.price,
                link := p.link.getD r.link,
                tags := tres.1.getD r.tags,
                ingredients := ires.1.getD r.ingredients }
          (.ok (.recipeOne r'),
           { ires.2 with
               recipes :=
                 ires.2.recipes.map (fun x => if x.id == r.id then r' else x) })

/-- `DELETE /recipes/{id}/`. -/
def recipeDestroy (auth : Option Nat) (rid : Nat) (db : DB) : Response × DB :=
  match auth with
  | none => (.unauthorized, db)
  | some u =>
      match recipeGetObject u rid db with
      | none => (.notFound, db)
      | some r =>
          (.noContent,
           { db with recipes := db.recipes.filter (fun x => x.id != r.id) })

/-- The payload of a `POST /recipes/{id}/upload-image/` request.  Whether the
payload is a valid image is decided by the `RecipeImageSerializer`
(modelled from the spec: `recipe/serializers.py` is not among the sources;
per the spec, non-image payloads fail validation). -/
inductive ImagePayload where
  | validImage (data : String)
  | invalid
deriving DecidableEq, Repr

/-- `RecipeViewSet.upload_image`: get the object from the filtered queryset,
validate the payload; on success save the image and return 200 with the
updated representation, otherwise return 400 leaving the row untouched. -/
def recipeUploadImage (auth : Option Nat) (rid : Nat) (img : ImagePayload)
    (db : DB) : Response × DB :=
  match auth with
  | none => (.unauthorized, db)
  | some u =>
      match recipeGetObject u rid db with
      | none => (.notFound, db)
      | some r =>
          match img with
          | .invalid => (.badRequest, db)
          | .validImage d =>
              let r' : Recipe := { r with image := some d }
              (.ok (.recipeOne r'),
               { db with
                   recipes :=
                     db.recipes.map (fun x => if x.id == r.id then r' else x) })

/-- `GET /tags/`. -/
def tagList (auth : Option Nat) (db : DB) : Response × DB :=
  match auth with
  | none => (.unauthorized, db)
  | some u => (.ok (.tagPage (tagQueryset u db)), db)

/-- `PATCH/PUT /tags/{id}/`: rename, via `get_object` on the filtered
queryset. -/
def tagUpdate (auth : Option Nat) (tid : Nat) (newName : String) (db : DB) :
    Response × DB :=
  match auth with
  | none => (.unauthorized, db)
  | some u =>
      match tagGetObject u tid db with
      | none => (.notFound, db)
      | some t =>
          let t' : Tag := { t with name := newName }
          (.ok (.tagOne t'),
           { db with
               tags := db.tags.map (fun x => if x.id == t.id then t' else x) })

/-- `DELETE /tags/{id}/`. -/
def tagDestroy (auth : Option Nat) (tid : Nat) (db : DB) : Response × DB :=
  match auth with
  | none => (.unauthorized, db)
  | some u =>
      match tagGetObject u tid db with
      | none => (.notFound, db)
      | some t =>
          (.noContent, { db with tags := db.tags.filter (fun x => x.id != t.id) })

/-- `GET /ingredients/`. -/
def ingredientList (auth : Option Nat) (db : DB) : Response × DB :=
  match auth with
  | none => (.unauthorized, db)
  | some u => (.ok (.ingredientPage (ingredientQueryset u db)), db)

/-- `PATCH/PUT /ingredients/{id}/`. -/
def ingredientUpdate (auth : Option Nat) (iid : Nat) (newName : String)
    (db : DB) : Response × DB :=
  match auth with
  | none => (.unauthorized, db)
  | some u =>
      match ingredientGetObject u iid db with
      | none => (.notFound, db)
      | some i =>
          let i' : Ingredient := { i with name := newName }
          (.ok (.ingredientOne i'),
           { db with
               ingredients :=
                 db.ingredients.map (fun x => if x.id == i.id then i' else x) })

/-- `DELETE /ingredients/{id}/`. -/
def ingredientDestroy (auth : Option Nat) (iid : Nat) (db : DB) :
    Response × DB :=
  match auth with
  | none => (.unauthorized, db)
  | some u =>
      match ingredientGetObject u iid db with
      | none => (.notFound, db)
      | some i =>
          (.noContent,
           { db with
               ingredients := db.ingredients.filter (fun x => x.id != i.id) })

/-- The serializer classes `RecipeViewSet` chooses between. -/
inductive SerializerClass where
  | RecipeSerializer
  | RecipeDetailSerializer
  | RecipeImageSerializer
deriving DecidableEq, Repr

/-- `RecipeViewSet.get_serializer_class`: `RecipeSerializer` only for the
`list` action, `RecipeImageSerializer` for `upload_image`, and the class
default `RecipeDetailSerializer` for every other action. -/
def getSerializerClass (action : String) : SerializerClass :=
  if action == "list" then .RecipeSerializer
  else if action == "upload_image" then .RecipeImageSerializer
  else .RecipeDetailSerializer

/-- Modelled from the spec: `recipe/serializers.py` is not among the sources.
Per the spec, the summary representation has no description while the detail
representation includes it; the image serializer carries the image
reference. -/
def serializerFields : SerializerClass → List String
  | .RecipeSerializer =>
      ["id", "title", "time_minutes", "price", "link", "tags", "ingredients"]
  | .RecipeDetailSerializer =>
      ["id", "title", "time_minutes", "price", "link", "tags", "ingredients",
       "description"]
  | .RecipeImageSerializer => ["id", "image"]

/-- The actions `BaseRecipeAttrViewSet` supports, one per mixin:
`DestroyModelMixin`, `UpdateModelMixin` (update and its partial variant),
`ListModelMixin`; `GenericViewSet` itself contributes none. -/
def baseRecipeAttrActions : List String :=
  ["destroy", "update", "partial_update", "list"]

/-- DRF routing of an HTTP method on the detail route `/tags/{id}/` or
`/ingredients/{id}/` to a viewset action. -/
def detailActionForMethod (m : String) : Option String :=
  if m == "GET" then some "retrieve"
  else if m == "PUT" then some "update"
  else if m == "PATCH" then some "partial_update"
  else if m == "DELETE" then some "destroy"
  else none

/-- Whether an HTTP method on the tag/ingredient detail route is served: the
routed action must be one the viewset's mixins provide. -/
def detailMethodAllowed (m : String) : Bool :=
  match detailActionForMethod m with
  | some a => baseRecipeAttrActions.contains a
  | none => false

/-- Split a character list at the first dot, keeping everything after it. -/
def splitAtDot (cs : List Char) : List Char × Option (List Char) :=
  match cs with
  | [] => ([], none)
  | c :: rest =>
      if c == '.' then ([], some rest)
      else ((c :: (splitAtDot rest).1), (splitAtDot rest).2)

/-- Read a nonempty all-digit character list as a natural number. -/
def digitsToNat (cs : List Char) : Option Nat :=
  if cs.isEmpty then none
  else if cs.all Char.isDigit then
    some (cs.foldl (fun acc c => acc * 10 + (c.toNat - 48)) 0)
  else none

/-- Modelled from the spec: the serializer's decimal price field is not among
the sources.  Per the spec, price is a fixed-precision decimal (2 decimal
places); a string input is parsed digit-wise around the decimal point and
scaled to cents. -/
def parseDecimalString (s : String) : Option Int :=
  match digitsToNat (splitAtDot s.toList).1 with
  | none => none
  | some n =>
      match (splitAtDot s.toList).2 with
      | none => some ((n : Int) * 100)
      | some fcs =>
          match digitsToNat fcs with
          | none => none
          | some fr =>
              if fcs.length == 1 then some ((n : Int) * 100 + (fr : Int) * 10)
              else if fcs.length == 2 then some ((n : Int) * 100 + (fr : Int))
              else none

/-- A price value in a request payload: either a JSON string or a numeric
decimal literal with integer part and cent digits. -/
inductive PriceInput where
  | str (s : String)
  | num (units : Nat) (cents : Nat)
deriving DecidableEq, Repr

/-- Modelled from the spec: string-typed decimal input must be accepted and
parsed identically to numeric input; both land on the same scaled value. -/
def parsePrice : PriceInput → Option Int
  | .str s => parseDecimalString s
  | .num units cents =>
      if cents < 100 then some ((units : Int) * 100 + (cents : Int)) else none

/-- Database well-formedness: every row id is below its table's counter, so a
freshly allocated id collides with no existing row. -/
def WF (db : DB) : Prop :=
  (∀ r ∈ db.recipes, r.id < db.nextRecipeId)
    ∧ (∀ t ∈ db.tags, t.id < db.nextTagId)
    ∧ (∀ i ∈ db.ingredients, i.id < db.nextIngredientId)

instance (db : DB) : Decidable (WF db) := by
  unfold WF; infer_instance

/-! ### Helper lemmas -/

instance : IsTotal Recipe (fun a b => b.id ≤ a.id) :=
  ⟨fun a b => Nat.le_total b.id a.id⟩

instance : IsTrans Recipe (fun a b => b.id ≤ a.id) :=
  ⟨fun _ _ _ h1 h2 => le_trans h2 h1⟩

instance : IsTotal Tag (fun a b => b.name ≤ a.name) :=
  ⟨fun a b => le_total b.name a.name⟩

instance : IsTrans Tag (fun a b => b.name ≤ a.name) :=
  ⟨fun _ _ _ h1 h2 => le_trans h2 h1⟩

instance : IsTotal Ingredient (fun a b => b.name ≤ a.name) :=
  ⟨fun a b => le_total b.name a.name⟩

instance : IsTrans Ingredient (fun a b => b.name ≤ a.name) :=
  ⟨fun _ _ _ h1 h2 => le_trans h2 h1⟩

theorem mem_recipeQueryset {u : Nat} {db : DB} {r : Recipe} :
    r ∈ recipeQueryset u db ↔ r ∈ db.recipes ∧ r.user = u := by
  unfold recipeQueryset
  rw [(List.perm_insertionSort _ _).mem_iff, List.mem_filter]
  simp

theorem mem_tagQueryset {u : Nat} {db : DB} {t : Tag} :
    t ∈ tagQueryset u db ↔ t ∈ db.tags ∧ t.user = u := by
  unfold tagQueryset
  rw [(List.perm_insertionSort _ _).mem_iff, List.mem_filter]
  simp

theorem mem_ingredientQueryset {u : Nat} {db : DB} {i : Ingredient} :
    i ∈ ingredientQueryset u db ↔ i ∈ db.ingredients ∧ i.user = u := by
  unfold ingredientQueryset
  rw [(List.perm_insertionSort _ _).mem_iff, List.mem_filter]
  simp

theorem find?_unique {α : Type} (p : α → Bool) (a : α) :
    ∀ l : List α, a ∈ l → p a = true → (∀ x ∈ l, p x = true → x = a) →
      l.find? p = some a
  | [], h, _, _ => absurd h (List.not_mem_nil a)
  | b :: t, hmem, hp, huniq => by
      by_cases hb : p b = true
      · have hba : b = a := huniq b (List.mem_cons_self b t) hb
        rw [List.find?_cons_of_pos _ hb, hba]
      · rw [List.find?_cons_of_neg _ (by simpa using hb)]
        have hat : a ∈ t := by
          rcases List.mem_cons.mp hmem with h1 | h1
          · exact absurd (h1 ▸ hp) (by simpa [h1] using hb)
          · exact h1
        exact find?_unique p a t hat hp
          (fun x hx hpx => huniq x (List.mem_cons_of_mem _ hx) hpx)

theorem recipeGetObject_eq_none {u rid : Nat} {db : DB}
    (h : ∀ x ∈ db.recipes, x.id = rid → x.user ≠ u) :
    recipeGetObject u rid db = none := by
  unfold recipeGetObject
  rw [List.find?_eq_none]
  intro x hx hpx
  have hm := mem_recipeQueryset.mp hx
  exact h x hm.1 (by simpa using hpx) hm.2

theorem tagGetObject_eq_none {u tid : Nat} {db : DB}
    (h : ∀ x ∈ db.tags, x.id = tid → x.user ≠ u) :
    tagGetObject u tid db = none := by
  unfold tagGetObject
  rw [List.find?_eq_none]
  intro x hx hpx
  have hm := mem_tagQueryset.mp hx
  exact h x hm.1 (by simpa using hpx) hm.2

theorem ingredientGetObject_eq_none {u iid : Nat} {db : DB}
    (h : ∀ x ∈ db.ingredients, x.id = iid → x.user ≠ u) :
    ingredientGetObject u iid db = none := by
  unfold ingredientGetObject
  rw [List.find?_eq_none]
  intro x hx hpx
  have hm := mem_ingredientQueryset.mp hx
  exact h x hm.1 (by simpa using hpx) hm.2

theorem recipeGetObject_eq_some {u rid : Nat} {db : DB} {r : Recipe}
    (h1 : r ∈ db.recipes) (h2 : r.user = u) (hid : r.id = rid)
    (huniq : ∀ x ∈ db.recipes, x.user = u → x.id = rid → x = r) :
    recipeGetObject u rid db = some r := by
  unfold recipeGetObject
  apply find?_unique
  · exact mem_recipeQueryset.mpr ⟨h1, h2⟩
  · simpa using hid
  · intro x hx hpx
    have hm := mem_recipeQueryset.mp hx
    exact huniq x hm.1 hm.2 (by simpa using hpx)

theorem recipeGetObject_spec {u rid : Nat} {db : DB} {r : Recipe}
    (h : recipeGetObject u rid db = some r) :
    r ∈ db.recipes ∧ r.user = u ∧ r.id = rid := by
  unfold recipeGetObject at h
  have hmem := List.mem_of_find?_eq_some h
  have hp := List.find?_some h
  have hm := mem_recipeQueryset.mp hmem
  exact ⟨hm.1, hm.2, by simpa using hp⟩

theorem getOrCreateTag_frame (u : Nat) (n : String) (db : DB) :
    (getOrCreateTag u n db).2.recipes = db.recipes
      ∧ (getOrCreateTag u n db).2.ingredients = db.ingredients
      ∧ (getOrCreateTag u n db).2.nextRecipeId = db.nextRecipeId
      ∧ (getOrCreateTag u n db).2.nextIngredientId = db.nextIngredientId
      ∧ ∃ l, (getOrCreateTag u n db).2.tags = db.tags ++ l := by
  unfold getOrCreateTag
  cases h : db.tags.find? (fun t => t.user == u && t.name == n) with
  | none => exact ⟨rfl, rfl, rfl, rfl, ⟨_, rfl⟩⟩
  | some t => exact ⟨rfl, rfl, rfl, rfl, ⟨[], by simp⟩⟩

theorem getOrCreateIngredient_frame (u : Nat) (n : String) (db : DB) :
    (getOrCreateIngredient u n db).2.recipes = db.recipes
      ∧ (getOrCreateIngredient u n db).2.tags = db.tags
      ∧ (getOrCreateIngredient u n db).2.nextRecipeId = db.nextRecipeId
      ∧ (getOrCreateIngredient u n db).2.nextTagId = db.nextTagId
      ∧ ∃ l, (getOrCreateIngredient u n db).2.ingredients
          = db.ingredients ++ l := by
  unfold getOrCreateIngredient
  cases h : db.ingredients.find? (fun i => i.user == u && i.name == n) with
  | none => exact ⟨rfl, rfl, rfl, rfl, ⟨_, rfl⟩⟩
  | some i => exact ⟨rfl, rfl, rfl, rfl, ⟨[], by simp⟩⟩

theorem resolveTags_frame (u : Nat) :
    ∀ (names : List String) (db : DB),
      (resolveTags u names db).2.recipes = db.recipes
        ∧ (resolveTags u names db).2.ingredients = db.ingredients
        ∧ (resolveTags u names db).2.nextRecipeId = db.nextRecipeId
        ∧ (resolveTags u names db).2.nextIngredientId = db.nextIngredientId
        ∧ ∃ l, (resolveTags u names db).2.tags = db.tags ++ l
  | [], db => by
      refine ⟨rfl, rfl, rfl, rfl, ⟨[], by simp [resolveTags]⟩⟩
  | n :: rest, db => by
      have h1 := getOrCreateTag_frame u n db
      have h2 := resolveTags_frame u rest (getOrCreateTag u n db).2
      obtain ⟨l1, e1⟩ := h1.2.2.2.2
      obtain ⟨l2, e2⟩ := h2.2.2.2.2
      refine ⟨?_, ?_, ?_, ?_, ⟨l1 ++ l2, ?_⟩⟩
      · rw [show (resolveTags u (n :: rest) db).2
              = (resolveTags u rest (getOrCreateTag u n db).2).2 from rfl,
            h2.1, h1.1]
      · rw [show (resolveTags u (n :: rest) db).2
              = (resolveTags u rest (getOrCreateTag u n db).2).2 from rfl,
            h2.2.1, h1.2.1]
      · rw [show (resolveTags u (n :: rest) db).2
              = (resolveTags u rest (getOrCreateTag u n db).2).2 from rfl,
            h2.2.2.1, h1.2.2.1]
      · rw [show (resolveTags u (n :: rest) db).2
              = (resolveTags u rest (getOrCreateTag u n db).2).2 from rfl,
            h2.2.2.2.1, h1.2.2.2.1]
      · rw [show (resolveTags u (n :: rest) db).2
              = (resolveTags u rest (getOrCreateTag u n db).2).2 from rfl,
            e2, e1, List.append_assoc]

theorem resolveIngredients_frame (u : Nat) :
    ∀ (names : List String) (db : DB),
      (resolveIngredients u names db).2.recipes = db.recipes
        ∧ (resolveIngredients u names db).2.tags = db.tags
        ∧ (resolveIngredients u names db).2.nextRecipeId = db.nextRecipeId
        ∧ (resolveIngredients u names db).2.nextTagId = db.nextTagId
        ∧ ∃ l, (resolveIngredients u names db).2.ingredients
            = db.ingredients ++ l
  | [], db => by
      refine ⟨rfl, rfl, rfl, rfl, ⟨[], by simp [resolveIngredients]⟩⟩
  | n :: rest, db => by
      have h1 := getOrCreateIngredient_frame u n db
      have h2 := resolveIngredients_frame u rest (getOrCreateIngredient u n db).2
      obtain ⟨l1, e1⟩ := h1.2.2.2.2
      obtain ⟨l2, e2⟩ := h2.2.2.2.2
      refine ⟨?_, ?_, ?_, ?_, ⟨l1 ++ l2, ?_⟩⟩
      · rw [show (resolveIngredients u (n :: rest) db).2
              = (resolveIngredients u rest (getOrCreateIngredient u n db).2).2
              from rfl,
            h2.1, h1.1]
      · rw [show (resolveIngredients u (n :: rest) db).2
              = (resolveIngredients u rest (getOrCreateIngredient u n db).2).2
              from rfl,
            h2.2.1, h1.2.1]
      · rw [show (resolveIngredients u (n :: rest) db).2
              = (resolveIngredients u rest (getOrCreateIngredient u n db).2).2
              from rfl,
            h2.2.2.1, h1.2.2.1]
      · rw [show (resolveIngredients u (n :: rest) db).2
              = (resolveIngredients u rest (getOrCreateIngredient u n db).2).2
              from rfl,
            h2.2.2.2.1, h1.2.2.2.1]
      · rw [show (resolveIngredients u (n :: rest) db).2
              = (resolveIngredients u rest (getOrCreateIngredient u n db).2).2
              from rfl,
            e2, e1, List.append_assoc]

/-! ### Claim theorems -/

/-- C1: for every pair of distinct users A and B, rows created by A never
appear in B's list or retrieve responses (every queryset is pre-filtered to
the caller's rows), and B's request addressing A's resource by its identifier
returns not-found (404) on every detail operation, not forbidden. -/
theorem cross_user_isolation (A B : Nat) (db : DB) (hAB : A ≠ B) :
    ((recipeList (some B) db).1 = .ok (.recipePage (recipeQueryset B db)))
    ∧ (∀ r ∈ db.recipes, r.user = A → r ∉ recipeQueryset B db)
    ∧ (∀ t ∈ db.tags, t.user = A → t ∉ tagQueryset B db)
    ∧ (∀ i ∈ db.ingredients, i.user = A → i ∉ ingredientQueryset B db)
    ∧ (∀ rid, (∀ x ∈ db.recipes, x.id = rid → x.user = A) →
        recipeRetrieve (some B) rid db = (.notFound, db))
    ∧ (∀ rid p, (∀ x ∈ db.recipes, x.id = rid → x.user = A) →
        recipePatchUpdate (some B) rid p db = (.notFound, db)
          ∧ recipeDestroy (some B) rid db = (.notFound, db))
    ∧ (∀ tid nm, (∀ x ∈ db.tags, x.id = tid → x.user = A) →
        tagUpdate (some B) tid nm db = (.notFound, db)
          ∧ tagDestroy (some B) tid db = (.notFound, db))
    ∧ (∀ iid nm, (∀ x ∈ db.ingredients, x.id = iid → x.user = A) →
        ingredientUpdate (some B) iid nm db = (.notFound, db)
          ∧ ingredientDestroy (some B) iid db = (.notFound, db)) := by
  have hre : ∀ rid, (∀ x ∈ db.recipes, x.id = rid → x.user = A) →
      recipeGetObject B rid db = none := fun rid hall =>
    recipeGetObject_eq_none
      (fun x hx hid hxB => hAB ((hall x hx hid) ▸ hxB))
  have hta : ∀ tid, (∀ x ∈ db.tags, x.id = tid → x.user = A) →
      tagGetObject B tid db = none := fun tid hall =>
    tagGetObject_eq_none
      (fun x hx hid hxB => hAB ((hall x hx hid) ▸ hxB))
  have hin : ∀ iid, (∀ x ∈ db.ingredients, x.id = iid → x.user = A) →
      ingredientGetObject B iid db = none := fun iid hall =>
    ingredientGetObject_eq_none
      (fun x hx hid hxB => hAB ((hall x hx hid) ▸ hxB))
  refine ⟨rfl, ?_, ?_, ?_, ?_, ?_, ?_, ?_⟩
  · intro r _ hrA hmem
    exact hAB (hrA ▸ (mem_recipeQueryset.mp hmem).2)
  · intro t _ htA hmem
    exact hAB (htA ▸ (mem_tagQueryset.mp hmem).2)
  · intro i _ hiA hmem
    exact hAB (hiA ▸ (mem_ingredientQueryset.mp hmem).2)
  · intro rid hall
    simp [recipeRetrieve, hre rid hall]
  · intro rid p hall
    exact ⟨by simp [recipePatchUpdate, hre rid hall],
           by simp [recipeDestroy, hre rid hall]⟩
  · intro tid nm hall
    exact ⟨by simp [tagUpdate, hta tid hall],
           by simp [tagDestroy, hta tid hall]⟩
  · intro iid nm hall
    exact ⟨by simp [ingredientUpdate, hin iid hall],
           by simp [ingredientDestroy, hin iid hall]⟩

/-- A sample database holding one recipe, one tag and one ingredient, all
owned by user 0. -/
def dbUserZero : DB :=
  { recipes := [{ id := 10, user := 0, title := "Pasta", description := "d",
                  time_minutes := 5, price := 1050, link := "", image := none,
                  tags := [], ingredients := [] }],
    tags := [{ id := 20, user := 0, name := "Thai" }],
    ingredients := [{ id := 30, user := 0, name := "Salt" }],
    nextRecipeId := 11, nextTagId := 21, nextIngredientId := 31 }

/-- Witness for C1: user 1 addressing user 0's rows by id gets 404, and
user 0's rows are absent from user 1's querysets. -/
theorem cross_user_isolation_witness :
    recipeRetrieve (some 1) 10 dbUserZero = (.notFound, dbUserZero)
    ∧ tagUpdate (some 1) 20 "X" dbUserZero = (.notFound, dbUserZero)
    ∧ ingredientDestroy (some 1) 30 dbUserZero = (.notFound, dbUserZero) := by
  have h := cross_user_isolation 0 1 dbUserZero (by decide)
  exact ⟨h.2.2.2.2.1 10 (by decide),
         (h.2.2.2.2.2.2.1 20 "X" (by decide)).1,
         (h.2.2.2.2.2.2.2 30 "X" (by decide)).2⟩

/-- C10: every recipe created through the create endpoint is owned by the
authenticated caller — `perform_create` saves with `user=self.request.user`
regardless of any user value in the payload — and no authenticated create can
add a row owned by a different user. -/
theorem create_sets_owner (u : Nat) (p : RecipePayload) (db : DB) :
    ∃ r : Recipe,
      (recipeCreate (some u) p db).1 = .created (.recipeOne r)
        ∧ r.user = u
        ∧ (recipeCreate (some u) p db).2.recipes = db.recipes ++ [r]
        ∧ ∀ x ∈ (recipeCreate (some u) p db).2.recipes,
            x ∈ db.recipes ∨ x.user = u := by
  have e1 := (resolveIngredients_frame u (p.ingredients.getD [])
      (resolveTags u (p.tags.getD []) db).2).1
  have e2 := (resolveTags_frame u (p.tags.getD []) db).1
  refine ⟨_, rfl, rfl, ?_, ?_⟩
  · show (resolveIngredients u (p.ingredients.getD [])
        (resolveTags u (p.tags.getD []) db).2).2.recipes ++ [_]
      = db.recipes ++ [_]
    rw [e1, e2]
  · intro x hx
    simp only [recipeCreate, List.mem_append, List.mem_singleton] at hx
    rcases hx with h | h
    · rw [e1, e2] at h
      exact Or.inl h
    · subst h
      exact Or.inr rfl

theorem getOrCreateTag_new {u : Nat} {n : String} {db : DB}
    (h : ∀ t ∈ db.tags, ¬(t.user = u ∧ t.name = n)) :
    getOrCreateTag u n db =
      (db.nextTagId,
       { db with
           tags := db.tags ++ [{ id := db.nextTagId, user := u, name := n }],
           nextTagId := db.nextTagId + 1 }) := by
  unfold getOrCreateTag
  have hf : db.tags.find? (fun t => t.user == u && t.name == n) = none := by
    rw [List.find?_eq_none]
    intro x hx hpx
    exact h x hx (by simpa using hpx)
  rw [hf]

theorem getOrCreateTag_existing {u : Nat} {n : String} {db : DB} {t : Tag}
    (h : db.tags.find? (fun x => x.user == u && x.name == n) = some t) :
    getOrCreateTag u n db = (t.id, db) := by
  unfold getOrCreateTag
  rw [h]

/-- C2: nested tag names on recipe create are resolved by get-or-create on
(user, name): two fresh names yield exactly two new Tag rows owned by the
caller and attached to the recipe; a name matching an existing same-user row
reuses that row with no duplicate created. -/
theorem nested_tags_get_or_create :
    (∀ (u : Nat) (n1 n2 : String) (p : RecipePayload) (db : DB),
       n1 ≠ n2 → p.tags = some [n1, n2] →
       (∀ t ∈ db.tags, ¬(t.user = u ∧ t.name = n1)) →
       (∀ t ∈ db.tags, ¬(t.user = u ∧ t.name = n2)) →
       ∃ r, (recipeCreate (some u) p db).1 = .created (.recipeOne r)
         ∧ r.user = u
         ∧ r.tags = [db.nextTagId, db.nextTagId + 1]
         ∧ (recipeCreate (some u) p db).2.tags
             = db.tags ++ [{ id := db.nextTagId, user := u, name := n1 },
                           { id := db.nextTagId + 1, user := u, name := n2 }])
    ∧ (∀ (u : Nat) (n : String) (t : Tag) (p : RecipePayload) (db : DB),
       p.tags = some [n] →
       db.tags.find? (fun x => x.user == u && x.name == n) = some t →
       ∃ r, (recipeCreate (some u) p db).1 = .created (.recipeOne r)
         ∧ r.tags = [t.id]
         ∧ (recipeCreate (some u) p db).2.tags = db.tags) := by
  constructor
  · intro u n1 n2 p db hne hp hn1 hn2
    have e1 := getOrCreateTag_new hn1
    have hn2' : ∀ t ∈ ({ db with
          tags := db.tags ++ [{ id := db.nextTagId, user := u, name := n1 }],
          nextTagId := db.nextTagId + 1 } : DB).tags,
        ¬(t.user = u ∧ t.name = n2) := by
      intro t ht
      rcases List.mem_append.mp ht with h | h
      · exact hn2 t h
      · have he : t = { id := db.nextTagId, user := u, name := n1 } := by
          simpa using h
        rintro ⟨-, hname⟩
        rw [he] at hname
        exact hne hname
    have e2 := getOrCreateTag_new hn2'
    have htres1 : (resolveTags u [n1, n2] db).1
        = [db.nextTagId, db.nextTagId + 1] := by
      simp [resolveTags, e1, e2]
    have htres2 : (resolveTags u [n1, n2] db).2.tags
        = db.tags ++ [{ id := db.nextTagId, user := u, name := n1 },
                      { id := db.nextTagId + 1, user := u, name := n2 }] := by
      simp [resolveTags, e1, e2]
    have hing := (resolveIngredients_frame u (p.ingredients.getD [])
        (resolveTags u (p.tags.getD []) db).2).2.1
    refine ⟨_, rfl, rfl, ?_, ?_⟩
    · show (resolveTags u (p.tags.getD []) db).1 = _
      rw [hp, Option.getD_some, htres1]
    · show (resolveIngredients u (p.ingredients.getD [])
          (resolveTags u (p.tags.getD []) db).2).2.tags = _
      rw [hing, hp, Option.getD_some, htres2]
  · intro u n t p db hp hfind
    have e := getOrCreateTag_existing hfind
    have htres1 : (resolveTags u [n] db).1 = [t.id] := by
      simp [resolveTags, e]
    have htres2 : (resolveTags u [n] db).2 = db := by
      simp [resolveTags, e]
    have hing := (resolveIngredients_frame u (p.ingredients.getD [])
        (resolveTags u (p.tags.getD []) db).2).2.1
    refine ⟨_, rfl, ?_, ?_⟩
    · show (resolveTags u (p.tags.getD []) db).1 = _
      rw [hp, Option.getD_some, htres1]
    · show (resolveIngredients u (p.ingredients.getD [])
          (resolveTags u (p.tags.getD []) db).2).2.tags = _
      rw [hing, hp, Option.getD_some, htres2]

/-- The empty database. -/
def emptyDB : DB :=
  { recipes := [], tags := [], ingredients := [],
    nextRecipeId := 0, nextTagId := 0, nextIngredientId := 0 }

/-- A recipe payload with two fresh nested tag names. -/
def thaiPayload : RecipePayload :=
  { title := "Thai Prawn Curry", description := "", time_minutes := 30,
    price := 1050, link := "", tags := some ["Thai", "Dinner"],
    ingredients := none, payloadUser := none }

/-- A recipe payload whose single nested tag name matches an existing row. -/
def reusePayload : RecipePayload :=
  { title := "Dosa", description := "", time_minutes := 60,
    price := 2025, link := "", tags := some ["Thai"],
    ingredients := none, payloadUser := none }

/-- Witness for C2: on an empty table two fresh names create exactly rows 0
and 1; on a table already holding (user 0, "Thai") that row is reused and no
row is added. -/
theorem nested_tags_get_or_create_witness :
    (∃ r, (recipeCreate (some 0) thaiPayload emptyDB).1 = .created (.recipeOne r)
       ∧ r.user = 0
       ∧ r.tags = [0, 1]
       ∧ (recipeCreate (some 0) thaiPayload emptyDB).2.tags
           = [{ id := 0, user := 0, name := "Thai" },
              { id := 1, user := 0, name := "Dinner" }])
    ∧ (∃ r, (recipeCreate (some 0) reusePayload dbUserZero).1
          = .created (.recipeOne r)
       ∧ r.tags = [20]
       ∧ (recipeCreate (some 0) reusePayload dbUserZero).2.tags
           = dbUserZero.tags) :=
  ⟨nested_tags_get_or_create.1 0 "Thai" "Dinner" thaiPayload emptyDB
      (by decide) rfl (by decide) (by decide),
   nested_tags_get_or_create.2 0 "Thai" { id := 20, user := 0, name := "Thai" }
      reusePayload dbUserZero rfl (by decide)⟩

/-- C3: a nested `tags` list present in a PATCH payload fully replaces the
recipe's tag association set with the resolved set; no Tag row is deleted,
the ingredient table is untouched, every other recipe and every other field
of the recipe are unchanged, and an empty list clears all associations while
the Tag rows and the Recipe itself survive. -/
theorem nested_list_fully_replaces (u rid : Nat) (names : List String)
    (r : Recipe) (db : DB) (hr : recipeGetObject u rid db = some r) :
    (recipePatchUpdate (some u) rid { tags := some names } db).1
      = .ok (.recipeOne { r with tags := (resolveTags u names db).1 })
    ∧ (∃ l, (recipePatchUpdate (some u) rid { tags := some names } db).2.tags
        = db.tags ++ l)
    ∧ (recipePatchUpdate (some u) rid { tags := some names } db).2.ingredients
        = db.ingredients
    ∧ (recipePatchUpdate (some u) rid { tags := some names } db).2.recipes
        = db.recipes.map (fun x => if x.id == r.id
            then { r with tags := (resolveTags u names db).1 } else x)
    ∧ (names = [] →
        (recipePatchUpdate (some u) rid { tags := some names } db).2.tags
            = db.tags
        ∧ ({ r with tags := (resolveTags u names db).1 } : Recipe).tags = []
        ∧ ({ r with tags := (resolveTags u names db).1 } : Recipe)
            ∈ (recipePatchUpdate (some u) rid { tags := some names } db).2.recipes
        ∧ (recipePatchUpdate (some u) rid
              { tags := some names } db).2.recipes.length
            = db.recipes.length) := by
  have hrmem := (recipeGetObject_spec hr).1
  have key : recipePatchUpdate (some u) rid { tags := some names } db
      = (.ok (.recipeOne { r with tags := (resolveTags u names db).1 }),
         { (resolveTags u names db).2 with
             recipes := (resolveTags u names db).2.recipes.map
               (fun x => if x.id == r.id
                  then { r with tags := (resolveTags u names db).1 }
                  else x) }) := by
    unfold recipePatchUpdate
    dsimp only
    rw [hr]
    rfl
  have hfr := resolveTags_frame u names db
  refine ⟨by rw [key], ?_, ?_, ?_, ?_⟩
  · obtain ⟨l, hl⟩ := hfr.2.2.2.2
    refine ⟨l, ?_⟩
    rw [key]
    exact hl
  · rw [key]
    exact hfr.2.1
  · rw [key]
    show (resolveTags u names db).2.recipes.map _ = _
    rw [hfr.1]
  · intro h0
    subst h0
    refine ⟨?_, rfl, ?_, ?_⟩
    · rw [key]
      rfl
    · rw [key]
      show _ ∈ (resolveTags u [] db).2.recipes.map _
      exact List.mem_map.mpr ⟨r, hrmem, by simp⟩
    · rw [key]
      show ((resolveTags u [] db).2.recipes.map _).length = _
      simp [resolveTags]

/-- A database holding one recipe of user 0 associated with one tag. -/
def dbWithTaggedRecipe : DB :=
  { recipes := [{ id := 10, user := 0, title := "Pasta", description := "d",
                  time_minutes := 5, price := 1050, link := "", image := none,
                  tags := [20], ingredients := [] }],
    tags := [{ id := 20, user := 0, name := "Dessert" }],
    ingredients := [],
    nextRecipeId := 11, nextTagId := 21, nextIngredientId := 1 }

/-- Witness for C3: patching `tags` to the empty list clears the association
while the Tag row and the Recipe row survive. -/
theorem nested_list_fully_replaces_witness :
    (recipePatchUpdate (some 0) 10 { tags := some [] } dbWithTaggedRecipe).1
      = .ok (.recipeOne { id := 10, user := 0, title := "Pasta",
                          description := "d", time_minutes := 5,
                          price := 1050, link := "", image := none,
                          tags := [], ingredients := [] })
    ∧ (recipePatchUpdate (some 0) 10
          { tags := some [] } dbWithTaggedRecipe).2.tags
        = dbWithTaggedRecipe.tags
    ∧ (recipePatchUpdate (some 0) 10
          { tags := some [] } dbWithTaggedRecipe).2.recipes.length
        = dbWithTaggedRecipe.recipes.length := by
  have h := nested_list_fully_replaces 0 10 []
      { id := 10, user := 0, title := "Pasta", description := "d",
        time_minutes := 5, price := 1050, link := "", image := none,
        tags := [20], ingredients := [] } dbWithTaggedRecipe (by decide)
  exact ⟨h.1, (h.2.2.2.2 rfl).1, (h.2.2.2.2 rfl).2.2.2⟩

/-- C4: every listed route, called without a valid bearer token, returns 401
Unauthorized and performs no persistence operation — the database comes back
unchanged. -/
theorem unauthenticated_requests_401 (db : DB) (rid tid iid : Nat)
    (p : RecipePayload) (q : RecipePatch) (nm : String) (img : ImagePayload) :
    Response.unauthorized.statusCode = 401
    ∧ recipeList none db = (.unauthorized, db)
    ∧ recipeRetrieve none rid db = (.unauthorized, db)
    ∧ recipeCreate none p db = (.unauthorized, db)
    ∧ recipePatchUpdate none rid q db = (.unauthorized, db)
    ∧ recipeDestroy none rid db = (.unauthorized, db)
    ∧ recipeUploadImage none rid img db = (.unauthorized, db)
    ∧ tagList none db = (.unauthorized, db)
    ∧ tagUpdate none tid nm db = (.unauthorized, db)
    ∧ tagDestroy none tid db = (.unauthorized, db)
    ∧ ingredientList none db = (.unauthorized, db)
    ∧ ingredientUpdate none iid nm db = (.unauthorized, db)
    ∧ ingredientDestroy none iid db = (.unauthorized, db) :=
  ⟨rfl, rfl, rfl, rfl, rfl, rfl, rfl, rfl, rfl, rfl, rfl, rfl, rfl⟩

/-- Witness for C4 at concrete inputs. -/
theorem unauthenticated_requests_401_witness :
    recipeList none dbUserZero = (.unauthorized, dbUserZero)
    ∧ tagDestroy none 20 dbUserZero = (.unauthorized, dbUserZero) :=
  ⟨(unauthenticated_requests_401 dbUserZero 10 20 30 thaiPayload {} "X"
      .invalid).2.1,
   (unauthenticated_requests_401 dbUserZero 10 20 30 thaiPayload {} "X"
      .invalid).2.2.2.2.2.2.2.2.2.1⟩

/-- C5: a POST to the image-upload action with a non-image payload returns
400 and leaves the target recipe (indeed the whole database) unchanged; a
valid image is stored on the recipe's image field and the response carries
the updated representation including the image reference. -/
theorem image_upload_validation (u rid : Nat) (r : Recipe) (db : DB)
    (hr : recipeGetObject u rid db = some r) :
    recipeUploadImage (some u) rid .invalid db = (.badRequest, db)
    ∧ ∀ d, (recipeUploadImage (some u) rid (.validImage d) db).1
          = .ok (.recipeOne { r with image := some d })
        ∧ (recipeUploadImage (some u) rid (.validImage d) db).2.recipes
          = db.recipes.map
              (fun x => if x.id == r.id then { r with image := some d }
                else x) := by
  refine ⟨?_, fun d => ⟨?_, ?_⟩⟩
  · simp [recipeUploadImage, hr]
  · simp [recipeUploadImage, hr]
  · simp [recipeUploadImage, hr]

/-- Witness for C5: at a concrete database, a bad payload yields 400 with no
change and a valid image lands in the stored row and the response. -/
theorem image_upload_validation_witness :
    recipeUploadImage (some 0) 10 .invalid dbUserZero
      = (.badRequest, dbUserZero)
    ∧ (recipeUploadImage (some 0) 10 (.validImage "img.jpg") dbUserZero).1
      = .ok (.recipeOne { id := 10, user := 0, title := "Pasta",
                          description := "d", time_minutes := 5,
                          price := 1050, link := "",
                          image := some "img.jpg", tags := [],
                          ingredients := [] }) := by
  have h := image_upload_validation 0 10
      { id := 10, user := 0, title := "Pasta", description := "d",
        time_minutes := 5, price := 1050, link := "", image := none,
        tags := [], ingredients := [] } dbUserZero (by decide)
  exact ⟨h.1, (h.2 "img.jpg").1⟩

/-- C6 counterexample: the create action resolves to `RecipeDetailSerializer`
— the detail representation, whose field set includes description — not to
the summary `RecipeSerializer` that the claim says list and create share. -/
theorem create_action_uses_detail :
    getSerializerClass "create" = SerializerClass.RecipeDetailSerializer
    ∧ getSerializerClass "create" ≠ getSerializerClass "list"
    ∧ "description" ∈ serializerFields (getSerializerClass "create") := by
  decide

/-- C6 amended: only the list action uses the summary representation without
description; create, retrieve and both update variants use the detail
representation that includes description. -/
theorem serializer_selection :
    getSerializerClass "list" = SerializerClass.RecipeSerializer
    ∧ getSerializerClass "retrieve" = SerializerClass.RecipeDetailSerializer
    ∧ getSerializerClass "create" = SerializerClass.RecipeDetailSerializer
    ∧ getSerializerClass "update" = SerializerClass.RecipeDetailSerializer
    ∧ getSerializerClass "partial_update"
        = SerializerClass.RecipeDetailSerializer
    ∧ "description" ∉ serializerFields SerializerClass.RecipeSerializer
    ∧ "description" ∈ serializerFields SerializerClass.RecipeDetailSerializer
    := by decide

/-- C7: the recipe list returns exactly the caller's recipes ordered by
descending identifier; the tag and ingredient lists return exactly the
caller's rows ordered by descending name. -/
theorem list_scoped_and_ordered (u : Nat) (db : DB) :
    (recipeList (some u) db).1 = .ok (.recipePage (recipeQueryset u db))
    ∧ (recipeQueryset u db).Perm (db.recipes.filter (fun r => r.user == u))
    ∧ List.Sorted (fun a b : Recipe => b.id ≤ a.id) (recipeQueryset u db)
    ∧ (tagList (some u) db).1 = .ok (.tagPage (tagQueryset u db))
    ∧ (tagQueryset u db).Perm (db.tags.filter (fun t => t.user == u))
    ∧ List.Sorted (fun a b : Tag => b.name ≤ a.name) (tagQueryset u db)
    ∧ (ingredientList (some u) db).1
        = .ok (.ingredientPage (ingredientQueryset u db))
    ∧ (ingredientQueryset u db).Perm
        (db.ingredients.filter (fun i => i.user == u))
    ∧ List.Sorted (fun a b : Ingredient => b.name ≤ a.name)
        (ingredientQueryset u db) :=
  ⟨rfl, List.perm_insertionSort _ _, List.sorted_insertionSort _ _,
   rfl, List.perm_insertionSort _ _, List.sorted_insertionSort _ _,
   rfl, List.perm_insertionSort _ _, List.sorted_insertionSort _ _⟩

/-- C8 counterexample: GET on the tag/ingredient detail route maps to the
`retrieve` action, which `BaseRecipeAttrViewSet` does not provide — its
mixins contribute only destroy, update, partial update and list — so a GET
request to `/tags/{id}/` or `/ingredients/{id}/` is not served. -/
theorem detail_get_not_supported :
    detailActionForMethod "GET" = some "retrieve"
    ∧ "retrieve" ∉ baseRecipeAttrActions
    ∧ detailMethodAllowed "GET" = false := by decide

/-- C8 amended: the tag/ingredient detail route supports PUT, PATCH and
DELETE but not GET (there is no retrieve action); the list action exists, so
`GET /tags/` and `GET /ingredients/` are served. -/
theorem detail_route_methods :
    detailMethodAllowed "PUT" = true
    ∧ detailMethodAllowed "PATCH" = true
    ∧ detailMethodAllowed "DELETE" = true
    ∧ detailMethodAllowed "GET" = false
    ∧ "list" ∈ baseRecipeAttrActions := by decide

/-- C9: a price supplied as the string "18.20" and the same price supplied as
the numeric decimal literal 18.20 parse to the identical fixed-precision
value, and a recipe created from a payload carrying that parsed value stores
it and retrieves it unchanged. -/
theorem price_string_numeric_identical :
    parsePrice (.str "18.20") = parsePrice (.num 18 20)
    ∧ parsePrice (.str "18.20") = some 1820
    ∧ (∀ (u : Nat) (p : RecipePayload) (db : DB),
        WF db → parsePrice (.str "18.20") = some p.price →
        ∃ r, (recipeCreate (some u) p db).1 = .created (.recipeOne r)
          ∧ r.price = 1820
          ∧ (recipeRetrieve (some u) r.id (recipeCreate (some u) p db).2).1
              = .ok (.recipeOne r)) := by
  refine ⟨by decide, by decide, ?_⟩
  intro u p db hwf hv
  have hp : p.price = 1820 := by
    have h0 : parsePrice (.str "18.20") = some 1820 := by decide
    rw [h0] at hv
    injection hv with h
    exact h.symm
  have hT := resolveTags_frame u (p.tags.getD []) db
  have hI := resolveIngredients_frame u (p.ingredients.getD [])
      (resolveTags u (p.tags.getD []) db).2
  refine ⟨_, rfl, ?_, ?_⟩
  · show p.price = (1820 : Int)
    exact hp
  · have hrid : (resolveIngredients u (p.ingredients.getD [])
        (resolveTags u (p.tags.getD []) db).2).2.nextRecipeId
          = db.nextRecipeId := by
      rw [hI.2.2.1, hT.2.2.1]
    have hobj : recipeGetObject u
        (resolveIngredients u (p.ingredients.getD [])
          (resolveTags u (p.tags.getD []) db).2).2.nextRecipeId
        (recipeCreate (some u) p db).2
        = some { id := (resolveIngredients u (p.ingredients.getD [])
                    (resolveTags u (p.tags.getD []) db).2).2.nextRecipeId,
                 user := u, title := p.title, description := p.description,
                 time_minutes := p.time_minutes, price := p.price,
                 link := p.link, image := none,
                 tags := (resolveTags u (p.tags.getD []) db).1,
                 ingredients := (resolveIngredients u (p.ingredients.getD [])
                    (resolveTags u (p.tags.getD []) db).2).1 } := by
      apply recipeGetObject_eq_some
      · exact List.mem_append.mpr (Or.inr (List.mem_singleton.mpr rfl))
      · rfl
      · rfl
      · intro x hx hxu hxid
        rcases List.mem_append.mp hx with h | h
        · exfalso
          rw [hI.1, hT.1] at h
          have hlt := hwf.1 x h
          rw [hxid] at hlt
          rw [hrid] at hlt
          exact Nat.lt_irrefl _ hlt
        · simpa using h
    simp [recipeRetrieve, hobj]

/-- A create payload whose price is the parse of the string "18.20". -/
def pricePayload : RecipePayload :=
  { title := "Sample Test2 Recipe Title", description := "",
    time_minutes := 15, price := 1820, link := "", tags := none,
    ingredients := none, payloadUser := none }

/-- Witness for C9: on the empty database, a recipe created with the price
parsed from "18.20" stores 18.20 and retrieves it unchanged. -/
theorem price_string_numeric_identical_witness :
    ∃ r, (recipeCreate (some 0) pricePayload emptyDB).1
          = .created (.recipeOne r)
      ∧ r.price = 1820
      ∧ (recipeRetrieve (some 0) r.id
            (recipeCreate (some 0) pricePayload emptyDB).2).1
          = .ok (.recipeOne r) :=
  price_string_numeric_identical.2.2 0 pricePayload emptyDB
    (by decide) (by decide)

/-- Witness for C10: a concrete create whose payload carries no matching user
still yields a recipe owned by the caller. -/
theorem create_sets_owner_witness :
    ∃ r : Recipe,
      (recipeCreate (some 0) thaiPayload emptyDB).1 = .created (.recipeOne r)
        ∧ r.user = 0
        ∧ (recipeCreate (some 0) thaiPayload emptyDB).2.recipes
            = emptyDB.recipes ++ [r]
        ∧ ∀ x ∈ (recipeCreate (some 0) thaiPayload emptyDB).2.recipes,
            x ∈ emptyDB.recipes ∨ x.user = 0 :=
  create_sets_owner 0 thaiPayload emptyDB

end RecipeApp
